import Mathlib

/-!
Verification model of the `sse.ts` client (files `src/lib/sse.ts` and
`src/lib/types/index.ts`): a client-side Server-Sent-Events reader built on an
XHR-like transport.  The embedding below translates the source functions into
pure Lean functions; the mutable fields of the `SSE` class become an explicit
`SSEState` threaded through step functions, and every `dispatchEvent` call is
recorded in an observation trace.  Listener callbacks are modelled as external
observers of dispatched events (the dispatcher itself is modelled separately,
over an explicit listener list, for the dispatch-contract claims); re-entrant
calls from listeners back into the session are outside the model.
-/

namespace Sse

/-! ## JavaScript string primitives

`trim`, `trimLeft`/`trimStart`, `trimRight`/`trimEnd`, `substring` and
`indexOf`, restricted to the ASCII whitespace characters that can occur here.
-/

/-- JS whitespace recognised by `trim`/`trimLeft`/`trimRight` (ASCII part). -/
def jsWs (c : Char) : Bool :=
  c = ' ' || c = '\t' || c = '\n' || c = '\r' || c = '\x0b' || c = '\x0c'

def jsTrimLeft (s : String) : String := String.mk (s.toList.dropWhile jsWs)

def jsTrimRight (s : String) : String :=
  String.mk ((s.toList.reverse.dropWhile jsWs).reverse)

def jsTrim (s : String) : String := jsTrimLeft (jsTrimRight s)

/-- `s.substring(n)` -/
def jsDrop (s : String) (n : Nat) : String := String.mk (s.toList.drop n)

/-- `s.substring(0, n)` -/
def jsTake (s : String) (n : Nat) : String := String.mk (s.toList.take n)

def jsIndexOfAux (c : Char) : List Char → Nat → Option Nat
  | [], _ => none
  | d :: rest, i => if d = c then some i else jsIndexOfAux c rest (i + 1)

/-- `s.indexOf(c)`, as `none` for `-1`. -/
def jsIndexOf (s : String) (c : Char) : Option Nat := jsIndexOfAux c s.toList 0

/-! ## The two split regexes of `sse.ts`

`_onStreamProgress` splits each new increment with `/(\r\n|\r|\n){2}/g` (one
capture group, so the last captured line break of each match is spliced into
the result list, exactly as `String.prototype.split` does), and
`_parseEventChunk` splits a record into lines with `/\n|\r\n|\r/`.

A backtracking regex engine lets `(\r\n|\r|\n){2}` match a lone `"\r\n"` (the
first iteration backtracks from `\r\n` to `\r`, the second matches `\n`), so
the record-separator match is: the first way, in alternation order and with
that backtracking, of reading two consecutive line breaks.
-/

/-- Drop an explicit character-list prefix, or fail. -/
def stripPfx : List Char → List Char → Option (List Char)
  | [], s => some s
  | c :: p, d :: s => if c = d then stripPfx p s else none
  | _ :: _, [] => none

/-- The alternatives of `(\r\n|\r|\n)`, in the order the regex tries them. -/
def breakAlts : List (List Char) := [['\r', '\n'], ['\r'], ['\n']]

/-- First alternative of `alts` matching at the head of `s`:
returns the break consumed and the remainder. -/
def firstBreak : List (List Char) → List Char → Option (List Char × List Char)
  | [], _ => none
  | b :: alts, s =>
    match stripPfx b s with
    | some r => some (b, r)
    | none => firstBreak alts s

/-- Backtracking match of `(\r\n|\r|\n){2}` at the head of `s`: tries each
alternative for the first break and, within it, each alternative for the
second; returns the second (captured) break and the remainder. -/
def matchTwoAux : List (List Char) → List Char → Option (List Char × List Char)
  | [], _ => none
  | b1 :: alts, s =>
    match stripPfx b1 s with
    | none => matchTwoAux alts s
    | some s1 =>
      match firstBreak breakAlts s1 with
      | some (b2, s2) => some (b2, s2)
      | none => matchTwoAux alts s

def matchTwo (s : List Char) : Option (List Char × List Char) :=
  matchTwoAux breakAlts s

/-- `data.split(/(\r\n|\r|\n){2}/g)`: walk the string, emitting the text part
and the captured (second) break of each leftmost match.  Fuel is the length of
the string; every step consumes at least one character, so the fuel never runs
out when started at the full length. -/
def splitDoubleAux : Nat → List Char → List Char → List (List Char)
  | 0, s, acc => [acc.reverse ++ s]
  | fuel + 1, s, acc =>
    match s with
    | [] => [acc.reverse]
    | c :: rest =>
      match matchTwo s with
      | some (cap, after) => acc.reverse :: cap :: splitDoubleAux fuel after []
      | none => splitDoubleAux fuel rest (c :: acc)

def splitDouble (s : String) : List String :=
  (splitDoubleAux s.toList.length s.toList []).map String.mk

/-- The alternatives of `/\n|\r\n|\r/`, in the order the regex tries them. -/
def lineBreakAlts : List (List Char) := [['\n'], ['\r', '\n'], ['\r']]

/-- `chunk.split(/\n|\r\n|\r/)` (no capture group, so only text parts). -/
def splitLinesAux : Nat → List Char → List Char → List (List Char)
  | 0, s, acc => [acc.reverse ++ s]
  | fuel + 1, s, acc =>
    match s with
    | [] => [acc.reverse]
    | c :: rest =>
      match firstBreak lineBreakAlts s with
      | some (_, after) => acc.reverse :: splitLinesAux fuel after []
      | none => splitLinesAux fuel rest (c :: acc)

def splitLinesJS (s : String) : List String :=
  (splitLinesAux s.toList.length s.toList []).map String.mk

/-! ## Events

`CustomSSEEvent` (from `src/lib/types/index.ts`): its constructor sets
`id = ''`, `type = type`, `data = {}`.  `data` is either that empty object or
a string assigned later, modelled by `JsVal`; `readyState` is only assigned by
`_setReadyState`.
-/

inductive JsVal where
  | obj
  | str (s : String)
deriving DecidableEq

structure Ev where
  type : String
  data : JsVal
  id : Option String
  readyState : Option Int
deriving DecidableEq

/-- `new CustomSSEEvent(type)`. -/
def newEvent (type : String) : Ev :=
  { type := type, data := .obj, id := some "", readyState := none }

/-! ## `_parseEventChunk` -/

/-- The working object `e = {'id': null, 'retry': null, 'data': '', 'event': 'message'}`. -/
structure EventAccum where
  id : Option String
  retry : Option String
  data : String
  event : String
deriving DecidableEq

/-- The per-line body of `_parseEventChunk`.  The source guards assignment with
`field in e`; besides the four own keys this also admits keys inherited from
`Object.prototype` (for example `toString`), but assigning those never changes
`e.event`, `e.data` or `e.id`, the only fields read afterwards, so over the
observable fields the guard is equivalent to the four-name test used here. -/
def parseLine (e : EventAccum) (line : String) : EventAccum :=
  let l := jsTrimRight line
  match jsIndexOf l ':' with
  | none => e
  | some idx =>
    if idx = 0 then e
    else
      let field := jsTake l idx
      let value := jsTrimLeft (jsDrop l (idx + 1))
      if field = "data" then { e with data := e.data ++ value }
      else if field = "id" then { e with id := some value }
      else if field = "retry" then { e with retry := some value }
      else if field = "event" then { e with event := value }
      else e

/-- `_parseEventChunk(chunk)`: `none` models the `null` return for an empty
chunk; otherwise builds `new CustomSSEEvent(e.event)` with `data` and `id`
copied from the accumulator (`retry` is parsed but not surfaced). -/
def parseEventChunk (chunk : String) : Option Ev :=
  if chunk.toList.length = 0 then none
  else
    let a := (splitLinesJS chunk).foldl parseLine
      { id := none, retry := none, data := "", event := "message" }
    some { type := a.event, data := .str a.data, id := a.id, readyState := none }

/-! ## Specification-side record parser (for the refinement claim C2)

Stated from the claim's words: collect the recognised `(field, value)` entries
line by line, then take the last `event` value (default `"message"`), the
concatenation of the `data` values (no separator), and the last `id` value
(default null).
-/

/-- The claim's per-line extraction: trailing whitespace stripped, lines
without a separator or with the separator first ignored, unrecognised field
names ignored, value taken after the separator with leading whitespace
stripped. -/
def lineEntry (line : String) : Option (String × String) :=
  let l := jsTrimRight line
  match jsIndexOf l ':' with
  | none => none
  | some idx =>
    if idx = 0 then none
    else
      let field := jsTake l idx
      let value := jsTrimLeft (jsDrop l (idx + 1))
      if field = "data" ∨ field = "id" ∨ field = "retry" ∨ field = "event" then
        some (field, value)
      else none

/-- Last value recorded for field `g` in an entry list. -/
def lastVal : List (String × String) → String → Option String
  | [], _ => none
  | (f, v) :: rest, g =>
    match lastVal rest g with
    | some w => some w
    | none => if f = g then some v else none

/-- Concatenation, with no separator, of all values for field `g`. -/
def joinVals : List (String × String) → String → String
  | [], _ => ""
  | (f, v) :: rest, g => (if f = g then v else "") ++ joinVals rest g

def overwrite (new old : Option String) : Option String :=
  match new with
  | some v => some v
  | none => old

def overwriteS (new : Option String) (old : String) : String :=
  match new with
  | some v => v
  | none => old

def entriesOf (lines : List String) : List (String × String) :=
  lines.filterMap lineEntry

/-- The claim's description of `_parseEventChunk`, assembled from the
recognised entries rather than by folding an accumulator. -/
def parseEventChunkSpec (chunk : String) : Option Ev :=
  if chunk.toList.length = 0 then none
  else
    let es := entriesOf (splitLinesJS chunk)
    some { type := overwriteS (lastVal es "event") "message",
           data := .str (joinVals es "data"),
           id := lastVal es "id",
           readyState := none }

/-! ## The session state machine

Fields of the `SSE` class that the streaming core mutates, plus the trace of
dispatched events.  `xhr : Bool` models whether `this.xhr` is non-null; the
data a notification exposes (`responseText`, `status`, the transport's own
`readyState`) arrives as arguments of the corresponding step.  Each dispatched
event is tagged with its provenance: `parsed` for events built by
`_parseEventChunk`, `synthetic` for the lifecycle events the session itself
creates.
-/

inductive Origin where
  | parsed
  | synthetic
deriving DecidableEq

structure TEv where
  origin : Origin
  ev : Ev
deriving DecidableEq

structure SSEState where
  readyState : Int
  xhr : Bool
  progress : Nat
  chunk : String
  trace : List TEv
deriving DecidableEq

def INITIALIZING : Int := -1
def CONNECTING : Int := 0
def OPENED : Int := 1
def CLOSED : Int := 2

/-- State right after the constructor ran with valid options. -/
def initState : SSEState :=
  { readyState := INITIALIZING, xhr := false, progress := 0, chunk := "", trace := [] }

def dispatchSyn (e : Ev) (s : SSEState) : SSEState :=
  { s with trace := s.trace ++ [⟨.synthetic, e⟩] }

def dispatchParsed (oe : Option Ev) (s : SSEState) : SSEState :=
  match oe with
  | none => s
  | some e => { s with trace := s.trace ++ [⟨.parsed, e⟩] }

/-- `_setReadyState(state)`: build a `readystatechange` event carrying the
state, store the state, dispatch. -/
def setReadyState (st : Int) (s : SSEState) : SSEState :=
  dispatchSyn { newEvent "readystatechange" with readyState := some st }
    { s with readyState := st }

/-- `close()`.  When `readyState` is already CLOSED it returns at once.
Otherwise it runs `this.xhr.abort()`: if the handle is null this line throws a
`TypeError` before any mutation, which the model renders as returning the
state unchanged (`closeThrows` reports the throw); with a live handle it drops
the handle and forces CLOSED. -/
def close (s : SSEState) : SSEState :=
  if s.readyState = CLOSED then s
  else if s.xhr then setReadyState CLOSED { s with xhr := false }
  else s

/-- Whether `close()` throws (`this.xhr.abort()` on a null handle). -/
def closeThrows (s : SSEState) : Bool :=
  !(s.readyState == CLOSED) && !s.xhr

/-- `_onStreamFailure(e)`: dispatch an `error` event whose `data` is the
response body, then `close()`. -/
def onStreamFailure (response : String) (s : SSEState) : SSEState :=
  close (dispatchSyn { newEvent "error" with data := .str response } s)

/-- `_onStreamAbort(e)`: dispatch an `abort` event, then `close()`. -/
def onStreamAbort (s : SSEState) : SSEState :=
  close (dispatchSyn (newEvent "abort") s)

/-- Body of the `forEach` over split parts in `_onStreamProgress`: a part that
trims to empty is a record boundary (parse the trimmed buffer, dispatch the
result if non-null, clear the buffer); otherwise append the part verbatim. -/
def partStep (s : SSEState) (part : String) : SSEState :=
  if (jsTrim part).toList.length = 0 then
    { dispatchParsed (parseEventChunk (jsTrim s.chunk)) s with chunk := "" }
  else
    { s with chunk := s.chunk ++ part }

/-- Tail of `_onStreamProgress`: take the newly arrived suffix of the
cumulative `responseText` at the progress cursor, advance the cursor, split
the suffix, and fold the parts into the buffer. -/
def progressBody (text : String) (s1 : SSEState) : SSEState :=
  let d := jsDrop text s1.progress
  (splitDouble d).foldl partStep { s1 with progress := s1.progress + d.toList.length }

/-- `_onStreamProgress(e)` on a notification exposing the cumulative
`responseText` and HTTP `status`: ignore with no handle; on `status !== 200`
fail; dispatch `open` and move to OPEN on the first data while CONNECTING;
then consume the newly arrived suffix. -/
def onStreamProgress (text : String) (status : Nat) (s : SSEState) : SSEState :=
  if s.xhr = false then s
  else if status ≠ 200 then onStreamFailure text s
  else if s.readyState = CONNECTING then
    progressBody text (setReadyState OPENED (dispatchSyn (newEvent "open") s))
  else progressBody text s

/-- `_onStreamLoaded(e)`: run the progress handler, then parse the last chunk
(the raw buffer, not trimmed, and with no blank-line terminator required),
dispatch it, and clear the buffer. -/
def onStreamLoaded (text : String) (status : Nat) (s : SSEState) : SSEState :=
  let s1 := onStreamProgress text status s
  { dispatchParsed (parseEventChunk s1.chunk) s1 with chunk := "" }

/-- `_checkStreamClosed()`: with a live handle whose own readyState is
`XMLHttpRequest.DONE` (4), force CLOSED. -/
def checkStreamClosed (xhrState : Nat) (s : SSEState) : SSEState :=
  if s.xhr = false then s
  else if xhrState = 4 then setReadyState CLOSED s
  else s

/-- `stream()`: move to CONNECTING and create the transport handle (the
request configuration and send are external effects). -/
def streamStart (s : SSEState) : SSEState :=
  { setReadyState CONNECTING s with xhr := true }

/-! ## Operation sequences -/

inductive Op where
  | stream
  | close
  | progress (text : String) (status : Nat)
  | loaded (text : String) (status : Nat)
  | abort
  | failure (response : String)
  | rsc (xhrState : Nat)
deriving DecidableEq

def stepOp (s : SSEState) (op : Op) : SSEState :=
  match op with
  | .stream => streamStart s
  | .close => close s
  | .progress text status => onStreamProgress text status s
  | .loaded text status => onStreamLoaded text status s
  | .abort => onStreamAbort s
  | .failure r => onStreamFailure r s
  | .rsc n => checkStreamClosed n s

def runOps (ops : List Op) (s : SSEState) : SSEState := ops.foldl stepOp s

def isStreamOp (op : Op) : Bool :=
  match op with
  | .stream => true
  | _ => false

def countStream (ops : List Op) : Nat := ops.countP isStreamOp

/-- Iterated `close()`. -/
def closeIter : Nat → SSEState → SSEState
  | 0, s => s
  | n + 1, s => closeIter n (close s)

/-! ## Trace observations -/

def isParsedTEv (e : TEv) : Bool :=
  match e.origin with
  | .parsed => true
  | .synthetic => false

/-- The synthetic lifecycle `open` dispatch. -/
def isOpenTEv (e : TEv) : Bool :=
  match e.origin with
  | .synthetic => e.ev.type == "open"
  | .parsed => false

/-- A `readystatechange` dispatch carrying CLOSED. -/
def isRscClosedTEv (e : TEv) : Bool :=
  match e.origin with
  | .synthetic => e.ev.type == "readystatechange" && e.ev.readyState == some CLOSED
  | .parsed => false

def parsedEvents (t : List TEv) : List Ev := (t.filter isParsedTEv).map TEv.ev

def countOpens (t : List TEv) : Nat := t.countP isOpenTEv

def countParsed (t : List TEv) : Nat := t.countP isParsedTEv

def countRscClosed (t : List TEv) : Nat := t.countP isRscClosedTEv

/-- No synthetic `open` dispatch occurs after any parsed-record dispatch. -/
def noOpenAfterParsed : List TEv → Bool
  | [] => true
  | e :: rest => (!(isParsedTEv e) || countOpens rest == 0) && noOpenAfterParsed rest

/-! ## The event dispatcher over an explicit listener list

`dispatchEvent` delivers to `this.listeners[e.type].every(cb)`, where `cb`
invokes the listener and then returns `!e.defaultPrevented`; `Array.every`
stops at the first `false`.  A listener is a function from the event to the
(possibly mutated) event; `listenerPass` returns how many listeners were
invoked, the `every` result, and the final event.
-/

structure DispatchEv where
  defaultPrevented : Bool
deriving DecidableEq

def Listener : Type := DispatchEv → DispatchEv

def listenerPass : List Listener → DispatchEv → Nat × Bool × DispatchEv
  | [], e => (0, true, e)
  | f :: rest, e =>
    let e1 := f e
    if e1.defaultPrevented then (1, false, e1)
    else
      let r := listenerPass rest e1
      (r.1 + 1, r.2.1, r.2.2)

/-- Threading an event through listeners with no short-circuit (the
counterfactual full pass, used to state where delivery stops). -/
def runThread (ls : List Listener) (e : DispatchEv) : DispatchEv :=
  ls.foldl (fun a f => f a) e

/-- `dispatchEvent(e)` for a non-null event: the `on<type>` handler slot runs
first and, if it leaves the event default-prevented, dispatch stops with
`false`; otherwise the listener set is delivered via `every`. -/
def dispatchEventModel (onHandler : Option Listener) (lset : Option (List Listener))
    (e : DispatchEv) : Bool :=
  match onHandler with
  | some h =>
    let e1 := h e
    if e1.defaultPrevented then false
    else
      match lset with
      | some ls => (listenerPass ls e1).2.1
      | none => true
  | none =>
    match lset with
    | some ls => (listenerPass ls e).2.1
    | none => true

/-- A listener that marks the event default-prevented. -/
def preventL : Listener := fun _ => { defaultPrevented := true }

/-- A listener that leaves the event unchanged. -/
def identL : Listener := fun e => e

/-! ## The constructor -/

structure SSEOptions where
  headers : Option (List (String × String))
  payload : Option String
  method : Option String
  withCredentials : Option Bool
deriving DecidableEq

structure SSEConfig where
  url : String
  headers : List (String × String)
  payload : String
  method : String
  withCredentials : Bool
deriving DecidableEq

/-- `constructor(url, options?)`: with `options` undefined or null the very
first read `options.headers` throws a `TypeError`; otherwise the defaults are
`headers = {}`, `payload = ''`, `method = options.method || (payload && 'POST'
|| 'GET')`, `withCredentials = !!options.withCredentials`. -/
def sseConstructor (url : String) (options : Option SSEOptions) :
    Except String SSEConfig :=
  match options with
  | none => .error "TypeError: options is null or undefined"
  | some o =>
    let headers := o.headers.getD []
    let payload := o.payload.getD ""
    let method :=
      match o.method with
      | some m => m
      | none => if payload ≠ "" then "POST" else "GET"
    let withCredentials := o.withCredentials.getD false
    .ok { url := url, headers := headers, payload := payload,
          method := method, withCredentials := withCredentials }

def ctorThrows (url : String) (options : Option SSEOptions) : Bool :=
  match sseConstructor url options with
  | .error _ => true
  | .ok _ => false

/-! ## Abbreviations and invariants used by the theorems -/

/-- Applying one recognised `(field, value)` entry to the accumulator:
`data` appends, the other recognised fields overwrite. -/
def applyEntry (e : EventAccum) (p : String × String) : EventAccum :=
  if p.1 = "data" then { e with data := e.data ++ p.2 }
  else if p.1 = "id" then { e with id := some p.2 }
  else if p.1 = "retry" then { e with retry := some p.2 }
  else if p.1 = "event" then { e with event := p.2 }
  else e

/-- The traced `readystatechange` dispatch carrying state `st`. -/
def rscTEv (st : Int) : TEv :=
  ⟨.synthetic, { newEvent "readystatechange" with readyState := some st }⟩

/-- The traced `error` dispatch carrying the response body. -/
def errTEv (response : String) : TEv :=
  ⟨.synthetic, { newEvent "error" with data := .str response }⟩

/-- The traced synthetic `open` dispatch. -/
def openTEv : TEv := ⟨.synthetic, newEvent "open"⟩

/-- The traced `abort` dispatch. -/
def abortTEv : TEv := ⟨.synthetic, newEvent "abort"⟩

/-- State invariant before `stream()` has ever run. -/
def InvA (s : SSEState) : Prop :=
  s.xhr = false ∧ s.readyState = INITIALIZING ∧ s.chunk = "" ∧
  countOpens s.trace = 0 ∧ countParsed s.trace = 0

/-- State invariant once `stream()` has run (and is not run again): at most
one `open` was dispatched, never after a parsed-record dispatch, and while
CONNECTING the handle is live and nothing was opened or parsed yet. -/
def Inv (s : SSEState) : Prop :=
  countOpens s.trace ≤ 1 ∧ noOpenAfterParsed s.trace = true ∧
  (s.readyState = CONNECTING →
    s.xhr = true ∧ countOpens s.trace = 0 ∧ countParsed s.trace = 0)

end Sse

namespace Sse

/-! ## Lemmas: the record parser agrees with its specification reading -/

theorem parseLine_entry (acc : EventAccum) (l : String) :
    parseLine acc l =
      (match lineEntry l with
       | none => acc
       | some p => applyEntry acc p) := by
  simp only [parseLine, lineEntry]
  cases jsIndexOf (jsTrimRight l) ':' with
  | none => rfl
  | some idx =>
    by_cases h0 : idx = 0
    · simp [h0]
    · by_cases hd : jsTake (jsTrimRight l) idx = "data"
      · simp [h0, hd, applyEntry]
      · by_cases hi : jsTake (jsTrimRight l) idx = "id"
        · simp [h0, hd, hi, applyEntry]
        · by_cases hr : jsTake (jsTrimRight l) idx = "retry"
          · simp [h0, hd, hi, hr, applyEntry]
          · by_cases he : jsTake (jsTrimRight l) idx = "event"
            · simp [h0, hd, hi, hr, he, applyEntry]
            · simp [h0, hd, hi, hr, he]

theorem foldl_parseLine_entries (lines : List String) (acc : EventAccum) :
    lines.foldl parseLine acc = (entriesOf lines).foldl applyEntry acc := by
  induction lines generalizing acc with
  | nil => rfl
  | cons l rest ih =>
    simp only [List.foldl_cons, entriesOf, List.filterMap_cons]
    rw [parseLine_entry]
    cases h : lineEntry l with
    | none => exact ih acc
    | some p => simpa using ih (applyEntry acc p)

theorem applyEntry_id (acc : EventAccum) (f v : String) :
    (applyEntry acc (f, v)).id = if f = "id" then some v else acc.id := by
  unfold applyEntry
  by_cases hd : f = "data"
  · subst hd; simp
  · by_cases hi : f = "id"
    · subst hi; simp
    · by_cases hr : f = "retry"
      · subst hr; simp
      · by_cases he : f = "event"
        · subst he; simp
        · simp [hd, hi, hr, he]

theorem applyEntry_retry (acc : EventAccum) (f v : String) :
    (applyEntry acc (f, v)).retry = if f = "retry" then some v else acc.retry := by
  unfold applyEntry
  by_cases hd : f = "data"
  · subst hd; simp
  · by_cases hi : f = "id"
    · subst hi; simp
    · by_cases hr : f = "retry"
      · subst hr; simp
      · by_cases he : f = "event"
        · subst he; simp
        · simp [hd, hi, hr, he]

theorem applyEntry_event (acc : EventAccum) (f v : String) :
    (applyEntry acc (f, v)).event = if f = "event" then v else acc.event := by
  unfold applyEntry
  by_cases hd : f = "data"
  · subst hd; simp
  · by_cases hi : f = "id"
    · subst hi; simp
    · by_cases hr : f = "retry"
      · subst hr; simp
      · by_cases he : f = "event"
        · subst he; simp
        · simp [hd, hi, hr, he]

theorem applyEntry_data (acc : EventAccum) (f v : String) :
    (applyEntry acc (f, v)).data = acc.data ++ (if f = "data" then v else "") := by
  unfold applyEntry
  by_cases hd : f = "data"
  · subst hd; simp
  · by_cases hi : f = "id"
    · subst hi; simp
    · by_cases hr : f = "retry"
      · subst hr; simp
      · by_cases he : f = "event"
        · subst he; simp
        · simp [hd, hi, hr, he]

theorem overwrite_lastVal_cons (f v g : String) (es : List (String × String))
    (old : Option String) :
    overwrite (lastVal ((f, v) :: es) g) old =
      overwrite (lastVal es g) (if f = g then some v else old) := by
  show overwrite (match lastVal es g with
      | some w => some w
      | none => if f = g then some v else none) old = _
  cases lastVal es g with
  | some w => rfl
  | none => by_cases h : f = g <;> simp [h, overwrite]

theorem overwriteS_lastVal_cons (f v g : String) (es : List (String × String))
    (old : String) :
    overwriteS (lastVal ((f, v) :: es) g) old =
      overwriteS (lastVal es g) (if f = g then v else old) := by
  show overwriteS (match lastVal es g with
      | some w => some w
      | none => if f = g then some v else none) old = _
  cases lastVal es g with
  | some w => rfl
  | none => by_cases h : f = g <;> simp [h, overwriteS]

theorem foldl_applyEntry (es : List (String × String)) (acc : EventAccum) :
    es.foldl applyEntry acc =
      { id := overwrite (lastVal es "id") acc.id,
        retry := overwrite (lastVal es "retry") acc.retry,
        data := acc.data ++ joinVals es "data",
        event := overwriteS (lastVal es "event") acc.event } := by
  induction es generalizing acc with
  | nil => simp [lastVal, joinVals, overwrite, overwriteS]
  | cons p rest ih =>
    rcases p with ⟨f, v⟩
    rw [List.foldl_cons, ih (applyEntry acc (f, v))]
    rw [overwrite_lastVal_cons, overwrite_lastVal_cons, overwriteS_lastVal_cons]
    rw [applyEntry_id, applyEntry_retry, applyEntry_event, applyEntry_data]
    show EventAccum.mk _ _ ((acc.data ++ _) ++ joinVals rest "data") _ =
      EventAccum.mk _ _ (acc.data ++ joinVals ((f, v) :: rest) "data") _
    rw [String.append_assoc]
    rfl

theorem overwrite_none (x : Option String) : overwrite x none = x := by
  cases x <;> rfl

theorem parseEventChunk_eq_spec (chunk : String) :
    parseEventChunk chunk = parseEventChunkSpec chunk := by
  unfold parseEventChunk parseEventChunkSpec
  by_cases h : chunk.toList.length = 0
  · rw [if_pos h, if_pos h]
  · rw [if_neg h, if_neg h]
    rw [foldl_parseLine_entries, foldl_applyEntry]
    simp [overwrite_none, overwriteS]

end Sse

namespace Sse

/-! ## Lemmas: basic facts about dispatching and the progress fold -/

theorem dispatchParsed_readyState (oe : Option Ev) (s : SSEState) :
    (dispatchParsed oe s).readyState = s.readyState := by
  cases oe <;> rfl

theorem dispatchParsed_xhr (oe : Option Ev) (s : SSEState) :
    (dispatchParsed oe s).xhr = s.xhr := by
  cases oe <;> rfl

theorem dispatchParsed_trace (oe : Option Ev) (s : SSEState) :
    ∃ u, (dispatchParsed oe s).trace = s.trace ++ u ∧ countOpens u = 0 := by
  cases oe with
  | none => exact ⟨[], by simp [dispatchParsed], rfl⟩
  | some e => exact ⟨[⟨.parsed, e⟩], rfl, rfl⟩

theorem partStep_readyState (s : SSEState) (p : String) :
    (partStep s p).readyState = s.readyState := by
  unfold partStep
  split
  · exact dispatchParsed_readyState _ s
  · rfl

theorem partStep_xhr (s : SSEState) (p : String) :
    (partStep s p).xhr = s.xhr := by
  unfold partStep
  split
  · exact dispatchParsed_xhr _ s
  · rfl

theorem partStep_trace (s : SSEState) (p : String) :
    ∃ u, (partStep s p).trace = s.trace ++ u ∧ countOpens u = 0 := by
  unfold partStep
  split
  · exact dispatchParsed_trace _ s
  · exact ⟨[], by simp, rfl⟩

theorem foldPart_readyState (parts : List String) (s : SSEState) :
    (parts.foldl partStep s).readyState = s.readyState := by
  induction parts generalizing s with
  | nil => rfl
  | cons p rest ih => rw [List.foldl_cons, ih, partStep_readyState]

theorem foldPart_xhr (parts : List String) (s : SSEState) :
    (parts.foldl partStep s).xhr = s.xhr := by
  induction parts generalizing s with
  | nil => rfl
  | cons p rest ih => rw [List.foldl_cons, ih, partStep_xhr]

theorem foldPart_trace (parts : List String) (s : SSEState) :
    ∃ u, (parts.foldl partStep s).trace = s.trace ++ u ∧ countOpens u = 0 := by
  induction parts generalizing s with
  | nil => exact ⟨[], by simp, rfl⟩
  | cons p rest ih =>
    obtain ⟨u1, hu1, hc1⟩ := partStep_trace s p
    obtain ⟨u2, hu2, hc2⟩ := ih (partStep s p)
    refine ⟨u1 ++ u2, ?_, ?_⟩
    · rw [List.foldl_cons, hu2, hu1, List.append_assoc]
    · unfold countOpens at *
      rw [List.countP_append, hc1, hc2]

/-! ## Lemmas: the `noOpenAfterParsed` trace property -/

theorem countParsed_append (t u : List TEv) :
    countParsed (t ++ u) = countParsed t + countParsed u := by
  unfold countParsed
  exact List.countP_append _ _ _

theorem countOpens_append (t u : List TEv) :
    countOpens (t ++ u) = countOpens t + countOpens u := by
  unfold countOpens
  exact List.countP_append _ _ _

theorem countOpens_cons_zero (e : TEv) (rest : List TEv)
    (h : countOpens (e :: rest) = 0) : countOpens rest = 0 := by
  unfold countOpens at h ⊢
  rw [List.countP_cons] at h
  omega

theorem countParsed_cons (e : TEv) (rest : List TEv)
    (h : countParsed (e :: rest) = 0) :
    isParsedTEv e = false ∧ countParsed rest = 0 := by
  unfold countParsed at h ⊢
  rw [List.countP_cons] at h
  constructor
  · cases hc : isParsedTEv e
    · rfl
    · rw [hc] at h; simp at h
  · omega

theorem noap_of_no_opens (t : List TEv) (h : countOpens t = 0) :
    noOpenAfterParsed t = true := by
  induction t with
  | nil => rfl
  | cons e rest ih =>
    have h1 : countOpens rest = 0 := countOpens_cons_zero e rest h
    unfold noOpenAfterParsed
    rw [ih h1, h1]
    simp

theorem noap_append (t u : List TEv) (ht : noOpenAfterParsed t = true)
    (hu : countOpens u = 0) : noOpenAfterParsed (t ++ u) = true := by
  induction t with
  | nil => exact noap_of_no_opens u hu
  | cons e rest ih =>
    unfold noOpenAfterParsed at ht ⊢
    rw [Bool.and_eq_true] at ht
    rw [List.cons_append, Bool.and_eq_true]
    refine ⟨?_, ih ht.2⟩
    rcases Bool.or_eq_true_iff.mp ht.1 with h | h
    · rw [h]; rfl
    · have h0 : countOpens rest = 0 := by simpa using h
      have h2 : countOpens (rest ++ u) = 0 := by
        rw [countOpens_append, h0, hu]
      rw [h2]
      simp

theorem noap_append_of_no_parsed (t u : List TEv) (ht : countParsed t = 0)
    (hu : noOpenAfterParsed u = true) : noOpenAfterParsed (t ++ u) = true := by
  induction t with
  | nil => exact hu
  | cons e rest ih =>
    obtain ⟨h2, h1⟩ := countParsed_cons e rest ht
    rw [List.cons_append]
    unfold noOpenAfterParsed
    rw [ih h1, h2]
    simp

end Sse

namespace Sse

/-! ## Lemmas: small facts about the lifecycle events -/

theorem countOpens_rsc (st : Int) : countOpens [rscTEv st] = 0 := rfl

theorem countParsed_rsc (st : Int) : countParsed [rscTEv st] = 0 := rfl

theorem setReadyState_trace (st : Int) (s : SSEState) :
    (setReadyState st s).trace = s.trace ++ [rscTEv st] := rfl

theorem progressBody_readyState (text : String) (s1 : SSEState) :
    (progressBody text s1).readyState = s1.readyState := by
  unfold progressBody
  exact foldPart_readyState _ _

theorem progress_of_no_xhr (text : String) (status : Nat) (s : SSEState)
    (h : s.xhr = false) : onStreamProgress text status s = s := by
  unfold onStreamProgress
  rw [if_pos h]

/-! ## Lemmas: `Inv` is preserved by every operation other than `stream()` -/

theorem inv_foldPart (parts : List String) (s : SSEState)
    (h1 : countOpens s.trace ≤ 1) (h2 : noOpenAfterParsed s.trace = true)
    (h3 : s.readyState ≠ CONNECTING) : Inv (parts.foldl partStep s) := by
  obtain ⟨u, hu, hc⟩ := foldPart_trace parts s
  refine ⟨?_, ?_, ?_⟩
  · rw [hu, countOpens_append, hc]
    omega
  · rw [hu]
    exact noap_append _ _ h2 hc
  · intro hrs
    rw [foldPart_readyState] at hrs
    exact absurd hrs h3

theorem inv_progressBody (text : String) (s1 : SSEState)
    (h1 : countOpens s1.trace ≤ 1) (h2 : noOpenAfterParsed s1.trace = true)
    (h3 : s1.readyState ≠ CONNECTING) : Inv (progressBody text s1) := by
  unfold progressBody
  exact inv_foldPart _ _ h1 h2 h3

theorem inv_setReadyState (st : Int) (s : SSEState)
    (h1 : countOpens s.trace ≤ 1) (h2 : noOpenAfterParsed s.trace = true)
    (hst : st ≠ CONNECTING) : Inv (setReadyState st s) := by
  refine ⟨?_, ?_, ?_⟩
  · show countOpens (s.trace ++ [rscTEv st]) ≤ 1
    rw [countOpens_append, countOpens_rsc]
    omega
  · show noOpenAfterParsed (s.trace ++ [rscTEv st]) = true
    exact noap_append _ _ h2 (countOpens_rsc st)
  · intro hrs
    exact absurd hrs hst

theorem inv_dispatchSyn (e : Ev) (s : SSEState) (hs : Inv s)
    (he : isOpenTEv ⟨.synthetic, e⟩ = false) : Inv (dispatchSyn e s) := by
  obtain ⟨h1, h2, h3⟩ := hs
  have hco : countOpens [(⟨.synthetic, e⟩ : TEv)] = 0 := by
    unfold countOpens
    rw [List.countP_cons, he]
    rfl
  have hcp : countParsed [(⟨.synthetic, e⟩ : TEv)] = 0 := rfl
  refine ⟨?_, ?_, ?_⟩
  · show countOpens (s.trace ++ [⟨.synthetic, e⟩]) ≤ 1
    rw [countOpens_append, hco]
    omega
  · exact noap_append _ _ h2 hco
  · intro hrs
    obtain ⟨hx, ho, hp⟩ := h3 hrs
    refine ⟨hx, ?_, ?_⟩
    · show countOpens (s.trace ++ [⟨.synthetic, e⟩]) = 0
      rw [countOpens_append, hco, ho]
    · show countParsed (s.trace ++ [⟨.synthetic, e⟩]) = 0
      rw [countParsed_append, hcp, hp]

theorem inv_close (s : SSEState) (hs : Inv s) : Inv (close s) := by
  unfold close
  by_cases h1 : s.readyState = CLOSED
  · rw [if_pos h1]
    exact hs
  · rw [if_neg h1]
    by_cases h2 : s.xhr = true
    · rw [if_pos h2]
      exact inv_setReadyState CLOSED _ hs.1 hs.2.1 (by decide)
    · rw [if_neg h2]
      exact hs

theorem inv_failure (r : String) (s : SSEState) (hs : Inv s) :
    Inv (onStreamFailure r s) :=
  inv_close _ (inv_dispatchSyn _ s hs rfl)

theorem inv_abort (s : SSEState) (hs : Inv s) : Inv (onStreamAbort s) :=
  inv_close _ (inv_dispatchSyn _ s hs rfl)

theorem inv_rsc (n : Nat) (s : SSEState) (hs : Inv s) :
    Inv (checkStreamClosed n s) := by
  unfold checkStreamClosed
  by_cases h1 : s.xhr = false
  · rw [if_pos h1]
    exact hs
  · rw [if_neg h1]
    by_cases h2 : n = 4
    · rw [if_pos h2]
      exact inv_setReadyState CLOSED s hs.1 hs.2.1 (by decide)
    · rw [if_neg h2]
      exact hs

theorem inv_progress (text : String) (status : Nat) (s : SSEState) (hs : Inv s) :
    Inv (onStreamProgress text status s) := by
  unfold onStreamProgress
  by_cases hx : s.xhr = false
  · rw [if_pos hx]
    exact hs
  · rw [if_neg hx]
    by_cases hst : status ≠ 200
    · rw [if_pos hst]
      exact inv_failure text s hs
    · rw [if_neg hst]
      by_cases hc : s.readyState = CONNECTING
      · rw [if_pos hc]
        obtain ⟨hxh, ho, hp⟩ := hs.2.2 hc
        apply inv_progressBody
        · show countOpens ((s.trace ++ [openTEv]) ++ [rscTEv OPENED]) ≤ 1
          rw [countOpens_append, countOpens_append, ho, countOpens_rsc]
          decide
        · show noOpenAfterParsed ((s.trace ++ [openTEv]) ++ [rscTEv OPENED]) = true
          rw [List.append_assoc]
          exact noap_append_of_no_parsed _ _ hp rfl
        · show OPENED ≠ CONNECTING
          decide
      · rw [if_neg hc]
        exact inv_progressBody text s hs.1 hs.2.1 hc

theorem close_readyState_of_xhr (s : SSEState) (h : s.xhr = true) :
    (close s).readyState = CLOSED := by
  unfold close
  by_cases h1 : s.readyState = CLOSED
  · rw [if_pos h1]
    exact h1
  · rw [if_neg h1, if_pos h]
    rfl

theorem failure_readyState_of_xhr (r : String) (s : SSEState) (h : s.xhr = true) :
    (onStreamFailure r s).readyState = CLOSED := by
  unfold onStreamFailure
  exact close_readyState_of_xhr _ h

theorem progress_not_connecting (text : String) (status : Nat) (s : SSEState)
    (hs : Inv s) : (onStreamProgress text status s).readyState ≠ CONNECTING := by
  unfold onStreamProgress
  by_cases hx : s.xhr = false
  · rw [if_pos hx]
    intro hrs
    exact absurd ((hs.2.2 hrs).1) (by rw [hx]; decide)
  · rw [if_neg hx]
    have hx' : s.xhr = true := by
      cases h : s.xhr
      · exact absurd h hx
      · rfl
    by_cases hst : status ≠ 200
    · rw [if_pos hst]
      rw [failure_readyState_of_xhr text s hx']
      decide
    · rw [if_neg hst]
      by_cases hc : s.readyState = CONNECTING
      · rw [if_pos hc, progressBody_readyState]
        show OPENED ≠ CONNECTING
        decide
      · rw [if_neg hc, progressBody_readyState]
        exact hc

theorem inv_loaded (text : String) (status : Nat) (s : SSEState) (hs : Inv s) :
    Inv (onStreamLoaded text status s) := by
  have h1 := inv_progress text status s hs
  have h2 := progress_not_connecting text status s hs
  unfold onStreamLoaded
  obtain ⟨u, hu, hc⟩ :=
    dispatchParsed_trace (parseEventChunk (onStreamProgress text status s).chunk)
      (onStreamProgress text status s)
  refine ⟨?_, ?_, ?_⟩
  · show countOpens (dispatchParsed _ (onStreamProgress text status s)).trace ≤ 1
    rw [hu, countOpens_append, hc]
    have := h1.1
    omega
  · show noOpenAfterParsed (dispatchParsed _ (onStreamProgress text status s)).trace = true
    rw [hu]
    exact noap_append _ _ h1.2.1 hc
  · intro hrs
    have hrs' : (onStreamProgress text status s).readyState = CONNECTING := by
      rw [← dispatchParsed_readyState
        (parseEventChunk (onStreamProgress text status s).chunk)
        (onStreamProgress text status s)]
      exact hrs
    exact absurd hrs' h2

theorem inv_step (s : SSEState) (op : Op) (hs : Inv s) (hop : op ≠ Op.stream) :
    Inv (stepOp s op) := by
  cases op with
  | stream => exact absurd rfl hop
  | close => exact inv_close s hs
  | progress text status => exact inv_progress text status s hs
  | loaded text status => exact inv_loaded text status s hs
  | abort => exact inv_abort s hs
  | failure r => exact inv_failure r s hs
  | rsc n => exact inv_rsc n s hs

theorem inv_streamStart (s : SSEState) (ha : InvA s) : Inv (streamStart s) := by
  obtain ⟨hx, hr, hch, ho, hp⟩ := ha
  refine ⟨?_, ?_, ?_⟩
  · show countOpens (s.trace ++ [rscTEv CONNECTING]) ≤ 1
    rw [countOpens_append, ho, countOpens_rsc]
    decide
  · show noOpenAfterParsed (s.trace ++ [rscTEv CONNECTING]) = true
    exact noap_append _ _ (noap_of_no_opens _ ho) (countOpens_rsc _)
  · intro _
    refine ⟨rfl, ?_, ?_⟩
    · show countOpens (s.trace ++ [rscTEv CONNECTING]) = 0
      rw [countOpens_append, ho, countOpens_rsc]
    · show countParsed (s.trace ++ [rscTEv CONNECTING]) = 0
      rw [countParsed_append, hp, countParsed_rsc]

/-! ## Lemmas: `InvA` is preserved before `stream()` runs -/

theorem invA_dispatchSyn (e : Ev) (s : SSEState) (ha : InvA s)
    (he : isOpenTEv ⟨.synthetic, e⟩ = false) : InvA (dispatchSyn e s) := by
  obtain ⟨hx, hr, hch, ho, hp⟩ := ha
  refine ⟨hx, hr, hch, ?_, ?_⟩
  · show countOpens (s.trace ++ [⟨.synthetic, e⟩]) = 0
    rw [countOpens_append, ho]
    unfold countOpens
    rw [List.countP_cons, he]
    rfl
  · show countParsed (s.trace ++ [⟨.synthetic, e⟩]) = 0
    rw [countParsed_append, hp]
    rfl

theorem invA_close (s : SSEState) (ha : InvA s) : InvA (close s) := by
  unfold close
  rw [if_neg (show ¬s.readyState = CLOSED by rw [ha.2.1]; decide)]
  rw [if_neg (show ¬s.xhr = true by rw [ha.1]; decide)]
  exact ha

theorem invA_progress (text : String) (status : Nat) (s : SSEState)
    (ha : InvA s) : InvA (onStreamProgress text status s) := by
  rw [progress_of_no_xhr text status s ha.1]
  exact ha

theorem invA_loaded (text : String) (status : Nat) (s : SSEState)
    (ha : InvA s) : InvA (onStreamLoaded text status s) := by
  unfold onStreamLoaded
  rw [progress_of_no_xhr text status s ha.1]
  show InvA { dispatchParsed (parseEventChunk s.chunk) s with chunk := "" }
  rw [ha.2.2.1]
  exact ⟨ha.1, ha.2.1, rfl, ha.2.2.2.1, ha.2.2.2.2⟩

theorem invA_abort (s : SSEState) (ha : InvA s) : InvA (onStreamAbort s) :=
  invA_close _ (invA_dispatchSyn _ s ha rfl)

theorem invA_failure (r : String) (s : SSEState) (ha : InvA s) :
    InvA (onStreamFailure r s) :=
  invA_close _ (invA_dispatchSyn _ s ha rfl)

theorem invA_rsc (n : Nat) (s : SSEState) (ha : InvA s) :
    InvA (checkStreamClosed n s) := by
  unfold checkStreamClosed
  rw [if_pos ha.1]
  exact ha

theorem invA_step (s : SSEState) (op : Op) (ha : InvA s) (hop : op ≠ Op.stream) :
    InvA (stepOp s op) := by
  cases op with
  | stream => exact absurd rfl hop
  | close => exact invA_close s ha
  | progress text status => exact invA_progress text status s ha
  | loaded text status => exact invA_loaded text status s ha
  | abort => exact invA_abort s ha
  | failure r => exact invA_failure r s ha
  | rsc n => exact invA_rsc n s ha

/-! ## Lemmas: running operation sequences -/

theorem notStream_of_false (op : Op) (h : isStreamOp op = false) : op ≠ Op.stream := by
  intro he
  rw [he] at h
  exact Bool.noConfusion h

theorem countStream_cons_zero (op : Op) (rest : List Op)
    (h : countStream (op :: rest) = 0) :
    isStreamOp op = false ∧ countStream rest = 0 := by
  unfold countStream at h ⊢
  rw [List.countP_cons] at h
  constructor
  · cases hc : isStreamOp op
    · rfl
    · rw [hc] at h
      simp at h
  · omega

theorem inv_run (ops : List Op) (s : SSEState) (hs : Inv s)
    (h : countStream ops = 0) : Inv (runOps ops s) := by
  induction ops generalizing s with
  | nil => exact hs
  | cons op rest ih =>
    obtain ⟨h1, h2⟩ := countStream_cons_zero op rest h
    show Inv (runOps rest (stepOp s op))
    exact ih (stepOp s op) (inv_step s op hs (notStream_of_false op h1)) h2

theorem invA_run (ops : List Op) (s : SSEState) (ha : InvA s)
    (h : countStream ops = 0) : InvA (runOps ops s) := by
  induction ops generalizing s with
  | nil => exact ha
  | cons op rest ih =>
    obtain ⟨h1, h2⟩ := countStream_cons_zero op rest h
    show InvA (runOps rest (stepOp s op))
    exact ih (stepOp s op) (invA_step s op ha (notStream_of_false op h1)) h2

theorem run_from_invA (ops : List Op) (s : SSEState) (ha : InvA s)
    (h : countStream ops ≤ 1) : Inv (runOps ops s) ∨ InvA (runOps ops s) := by
  induction ops generalizing s with
  | nil => exact Or.inr ha
  | cons op rest ih =>
    by_cases hop : op = Op.stream
    · subst hop
      have h2 : countStream rest = 0 := by
        unfold countStream at h ⊢
        rw [List.countP_cons] at h
        rw [show (if isStreamOp Op.stream = true then 1 else 0) = 1 from rfl] at h
        omega
      show Inv (runOps rest (streamStart s)) ∨ _
      exact Or.inl (inv_run rest _ (inv_streamStart s ha) h2)
    · have h2 : countStream rest ≤ 1 := by
        unfold countStream at h ⊢
        rw [List.countP_cons] at h
        omega
      show Inv (runOps rest (stepOp s op)) ∨ InvA (runOps rest (stepOp s op))
      exact ih (stepOp s op) (invA_step s op ha hop) h2

theorem invA_initState : InvA initState := ⟨rfl, rfl, rfl, rfl, rfl⟩

/-! ## Lemmas: CLOSED is preserved by every operation other than `stream()` -/

theorem closed_close (s : SSEState) (h : s.readyState = CLOSED) : close s = s := by
  unfold close
  rw [if_pos h]

theorem closed_failure (r : String) (s : SSEState) (h : s.readyState = CLOSED) :
    (onStreamFailure r s).readyState = CLOSED := by
  unfold onStreamFailure
  rw [closed_close _ (show (dispatchSyn _ s).readyState = CLOSED from h)]
  exact h

theorem closed_abort (s : SSEState) (h : s.readyState = CLOSED) :
    (onStreamAbort s).readyState = CLOSED := by
  unfold onStreamAbort
  rw [closed_close _ (show (dispatchSyn _ s).readyState = CLOSED from h)]
  exact h

theorem closed_progress (text : String) (status : Nat) (s : SSEState)
    (h : s.readyState = CLOSED) :
    (onStreamProgress text status s).readyState = CLOSED := by
  unfold onStreamProgress
  by_cases hx : s.xhr = false
  · rw [if_pos hx]
    exact h
  · rw [if_neg hx]
    by_cases hst : status ≠ 200
    · rw [if_pos hst]
      exact closed_failure text s h
    · rw [if_neg hst]
      rw [if_neg (show ¬s.readyState = CONNECTING by rw [h]; decide)]
      rw [progressBody_readyState]
      exact h

theorem closed_loaded (text : String) (status : Nat) (s : SSEState)
    (h : s.readyState = CLOSED) :
    (onStreamLoaded text status s).readyState = CLOSED := by
  unfold onStreamLoaded
  show (dispatchParsed _ (onStreamProgress text status s)).readyState = CLOSED
  rw [dispatchParsed_readyState]
  exact closed_progress text status s h

theorem closed_rsc (n : Nat) (s : SSEState) (h : s.readyState = CLOSED) :
    (checkStreamClosed n s).readyState = CLOSED := by
  unfold checkStreamClosed
  by_cases h1 : s.xhr = false
  · rw [if_pos h1]
    exact h
  · rw [if_neg h1]
    by_cases h2 : n = 4
    · rw [if_pos h2]
      rfl
    · rw [if_neg h2]
      exact h

theorem closed_step (s : SSEState) (op : Op) (h : s.readyState = CLOSED)
    (hop : op ≠ Op.stream) : (stepOp s op).readyState = CLOSED := by
  cases op with
  | stream => exact absurd rfl hop
  | close => rw [show stepOp s .close = close s from rfl, closed_close s h]; exact h
  | progress text status => exact closed_progress text status s h
  | loaded text status => exact closed_loaded text status s h
  | abort => exact closed_abort s h
  | failure r => exact closed_failure r s h
  | rsc n => exact closed_rsc n s h

theorem closed_run (ops : List Op) (s : SSEState) (h : countStream ops = 0)
    (hc : s.readyState = CLOSED) : (runOps ops s).readyState = CLOSED := by
  induction ops generalizing s with
  | nil => exact hc
  | cons op rest ih =>
    obtain ⟨h1, h2⟩ := countStream_cons_zero op rest h
    show (runOps rest (stepOp s op)).readyState = CLOSED
    exact ih (stepOp s op) h2 (closed_step s op hc (notStream_of_false op h1))

end Sse

namespace Sse

/-! ## Lemmas: the listener delivery pass -/

theorem listenerPass_spec (ls : List Listener) (e : DispatchEv) :
    ((∀ k, k < ls.length → (runThread (ls.take (k + 1)) e).defaultPrevented = false) →
      (listenerPass ls e).1 = ls.length ∧ (listenerPass ls e).2.1 = true)
    ∧ (∀ k, k < ls.length →
        (runThread (ls.take (k + 1)) e).defaultPrevented = true →
        (∀ j, j < k → (runThread (ls.take (j + 1)) e).defaultPrevented = false) →
        (listenerPass ls e).1 = k + 1 ∧ (listenerPass ls e).2.1 = false) := by
  induction ls generalizing e with
  | nil =>
    constructor
    · intro _
      exact ⟨rfl, rfl⟩
    · intro k hk
      exact absurd hk (Nat.not_lt_zero k)
  | cons f rest ih =>
    constructor
    · intro hA
      have h0 : (f e).defaultPrevented = false := hA 0 (Nat.succ_pos _)
      have hL : listenerPass (f :: rest) e =
          ((listenerPass rest (f e)).1 + 1, (listenerPass rest (f e)).2.1,
            (listenerPass rest (f e)).2.2) := by
        simp [listenerPass, h0]
      obtain ⟨hn, hb⟩ := (ih (f e)).1
        (fun k hk => hA (k + 1) (Nat.succ_lt_succ hk))
      rw [hL]
      exact ⟨by rw [hn]; rfl, hb⟩
    · intro k hk hprev hmin
      cases k with
      | zero =>
        have h0 : (f e).defaultPrevented = true := hprev
        constructor
        · simp [listenerPass, h0]
        · simp [listenerPass, h0]
      | succ m =>
        have h0 : (f e).defaultPrevented = false := hmin 0 (Nat.succ_pos _)
        have hL : listenerPass (f :: rest) e =
            ((listenerPass rest (f e)).1 + 1, (listenerPass rest (f e)).2.1,
              (listenerPass rest (f e)).2.2) := by
          simp [listenerPass, h0]
        obtain ⟨hn, hb⟩ := (ih (f e)).2 m (Nat.lt_of_succ_lt_succ hk) hprev
          (fun j hj => hmin (j + 1) (Nat.succ_lt_succ hj))
        rw [hL]
        exact ⟨by rw [hn], hb⟩

/-! ## Lemmas: `close()` case analysis and idempotence -/

theorem close_of_xhr (s : SSEState) (h1 : ¬s.readyState = CLOSED)
    (h2 : s.xhr = true) :
    close s = setReadyState CLOSED { s with xhr := false } := by
  unfold close
  rw [if_neg h1, if_pos h2]

theorem close_of_noxhr (s : SSEState) (h1 : ¬s.readyState = CLOSED)
    (h2 : s.xhr = false) : close s = s := by
  unfold close
  rw [if_neg h1, if_neg (by rw [h2]; decide)]

theorem close_idem (s : SSEState) : close (close s) = close s := by
  by_cases h1 : s.readyState = CLOSED
  · rw [closed_close s h1, closed_close s h1]
  · by_cases h2 : s.xhr = true
    · rw [close_of_xhr s h1 h2]
      exact closed_close _ rfl
    · have h2' : s.xhr = false := by
        cases h : s.xhr
        · rfl
        · exact absurd h h2
      rw [close_of_noxhr s h1 h2', close_of_noxhr s h1 h2']

theorem closeIter_eq (n : Nat) : ∀ s : SSEState, 1 ≤ n → closeIter n s = close s := by
  induction n with
  | zero =>
    intro s h
    omega
  | succ m ih =>
    intro s _
    show closeIter m (close s) = close s
    cases Nat.eq_zero_or_pos m with
    | inl h0 =>
      subst h0
      rfl
    | inr hpos =>
      rw [ih (close s) hpos, close_idem]

theorem close_countRsc (s : SSEState) :
    countRscClosed (close s).trace ≤ countRscClosed s.trace + 1 := by
  by_cases h1 : s.readyState = CLOSED
  · rw [closed_close s h1]
    omega
  · by_cases h2 : s.xhr = true
    · rw [close_of_xhr s h1 h2]
      show countRscClosed (s.trace ++ [rscTEv CLOSED]) ≤ _
      unfold countRscClosed
      rw [List.countP_append]
      have h : List.countP isRscClosedTEv [rscTEv CLOSED] ≤ 1 := by decide
      omega
    · have h2' : s.xhr = false := by
        cases h : s.xhr
        · rfl
        · exact absurd h h2
      rw [close_of_noxhr s h1 h2']
      omega

theorem close_effective (s : SSEState) (h1 : ¬s.readyState = CLOSED)
    (h2 : s.xhr = true) :
    (close s).readyState = CLOSED ∧ (close s).xhr = false ∧
      (close s).trace = s.trace ++ [rscTEv CLOSED] := by
  rw [close_of_xhr s h1 h2]
  exact ⟨rfl, rfl, rfl⟩

end Sse

namespace Sse

/-! ## Further helper lemmas for the claim theorems -/

theorem failure_closed_trace (r : String) (s : SSEState) (hx : s.xhr = true) :
    (onStreamFailure r s).trace =
      s.trace ++ errTEv r :: (if s.readyState = CLOSED then [] else [rscTEv CLOSED]) := by
  unfold onStreamFailure
  by_cases h1 : s.readyState = CLOSED
  · rw [if_pos h1]
    rw [closed_close _ (show (dispatchSyn { newEvent "error" with data := .str r } s).readyState
      = CLOSED from h1)]
    rfl
  · rw [if_neg h1]
    rw [close_of_xhr _ (show ¬(dispatchSyn { newEvent "error" with data := .str r } s).readyState
        = CLOSED from h1)
      (show (dispatchSyn { newEvent "error" with data := .str r } s).xhr = true from hx)]
    show (s.trace ++ [errTEv r]) ++ [rscTEv CLOSED] = _
    rw [List.append_assoc]
    rfl

/-! ## Claim theorems -/

/-- C1: the claim that chunked delivery always dispatches the same event
sequence as whole delivery fails on the code.  Delivering
`"data: a\n\ndata: b\n\n"` in one notification dispatches two events with data
`"a"` and `"b"`; delivering it as `"data: a\n"` followed by the rest — a split
falling inside the blank-line record separator — merges the two records into a
single event with data `"ab"`.  This theorem evaluates the model on both runs
of the failing input. -/
theorem c1_chunking_divergence :
    parsedEvents (runOps [.stream, .progress "data: a\n\ndata: b\n\n" 200,
        .loaded "data: a\n\ndata: b\n\n" 200] initState).trace =
      [{ type := "message", data := .str "a", id := none, readyState := none },
       { type := "message", data := .str "b", id := none, readyState := none }]
    ∧ parsedEvents (runOps [.stream, .progress "data: a\n" 200,
        .progress "data: a\n\ndata: b\n\n" 200,
        .loaded "data: a\n\ndata: b\n\n" 200] initState).trace =
      [{ type := "message", data := .str "ab", id := none, readyState := none }] :=
  ⟨rfl, rfl⟩

/-- C2: `_parseEventChunk` implements exactly the stated per-line rules —
lines split on any break variant, trailing whitespace stripped, lines with no
separator or a leading separator or an unrecognised field name ignored, `data`
values concatenated with no separator, other recognised fields overwritten —
producing type = last `event` value (default "message"), data = the
accumulator (default ""), id = last `id` value (default null); and the
example input dispatches `{type: "ping", id: "7", data: "ab"}`. -/
theorem c2_parse_rules (chunk : String) :
    parseEventChunk chunk = parseEventChunkSpec chunk ∧
    parsedEvents (runOps [.stream,
        .progress "event: ping\nid: 7\ndata: a\ndata: b\n\n" 200] initState).trace =
      [{ type := "ping", data := .str "ab", id := some "7", readyState := none }] :=
  ⟨parseEventChunk_eq_spec chunk, rfl⟩

/-- C3 counterexample: with two registered listeners whose first marks the
event default-prevented, only one listener is invoked (the `every` pass stops)
and the pass reports false — refuting the claim that every listener in the
set is invoked once delivery begins. -/
theorem c3_counterexample :
    (listenerPass [preventL, identL] { defaultPrevented := false }).1 = 1 ∧
    ([preventL, identL] : List Listener).length = 2 ∧
    (listenerPass [preventL, identL] { defaultPrevented := false }).2.1 = false :=
  ⟨rfl, rfl, rfl⟩

/-- C3 (amended): once dispatchEvent begins delivering to the listener set,
listeners are invoked in registration order, each at most once, but a listener
marking the event default-prevented stops delivery: if no prefix of the
threaded pass leaves the event prevented, all listeners are invoked and the
pass reports true; if `k` is the first index after whose invocation the event
is prevented, exactly the first `k + 1` listeners are invoked and the pass
reports false. -/
theorem c3_short_circuit_delivery (ls : List Listener) (e : DispatchEv) :
    ((∀ k, k < ls.length → (runThread (ls.take (k + 1)) e).defaultPrevented = false) →
      (listenerPass ls e).1 = ls.length ∧ (listenerPass ls e).2.1 = true)
    ∧ (∀ k, k < ls.length →
        (runThread (ls.take (k + 1)) e).defaultPrevented = true →
        (∀ j, j < k → (runThread (ls.take (j + 1)) e).defaultPrevented = false) →
        (listenerPass ls e).1 = k + 1 ∧ (listenerPass ls e).2.1 = false) :=
  listenerPass_spec ls e

/-- C3 witness: three listeners with the middle one preventing — exactly two
are invoked and the pass reports false, by the amended theorem. -/
theorem c3_witness :
    (runThread (([identL, preventL, identL] : List Listener).take 2)
        { defaultPrevented := false }).defaultPrevented = true ∧
    (listenerPass [identL, preventL, identL] { defaultPrevented := false }).1 = 2 ∧
    (listenerPass [identL, preventL, identL] { defaultPrevented := false }).2.1 = false := by
  refine ⟨rfl, ?_, ?_⟩
  · exact ((c3_short_circuit_delivery [identL, preventL, identL]
      { defaultPrevented := false }).2 1 (by decide) rfl
      (fun j hj => by
        have hj0 : j = 0 := by omega
        subst hj0
        rfl)).1
  · exact ((c3_short_circuit_delivery [identL, preventL, identL]
      { defaultPrevented := false }).2 1 (by decide) rfl
      (fun j hj => by
        have hj0 : j = 0 := by omega
        subst hj0
        rfl)).2

/-- C4: completion handling runs the normal incremental-progress handler
first, then parses whatever remains in the buffer as one final record (no
trailing blank-line terminator required), dispatches the resulting event when
parsing yielded one, and resets the buffer to empty; Example 5: a completion
arriving with buffered unterminated `"data: tail"` dispatches one final
`{type: "message", data: "tail"}` event and leaves the buffer empty. -/
theorem c4_loaded_flush (text : String) (status : Nat) (s : SSEState) (ev : Ev) :
    (onStreamLoaded text status s).chunk = "" ∧
    (parseEventChunk (onStreamProgress text status s).chunk = some ev →
      (onStreamLoaded text status s).trace =
        (onStreamProgress text status s).trace ++ [⟨.parsed, ev⟩]) ∧
    parsedEvents (runOps [.stream, .progress "data: tail" 200,
        .loaded "data: tail" 200] initState).trace =
      [{ type := "message", data := .str "tail", id := none, readyState := none }] ∧
    (runOps [.stream, .progress "data: tail" 200, .loaded "data: tail" 200]
        initState).chunk = "" := by
  refine ⟨rfl, ?_, rfl, rfl⟩
  intro h
  show (dispatchParsed (parseEventChunk (onStreamProgress text status s).chunk)
      (onStreamProgress text status s)).trace = _
  rw [h]
  rfl

/-- C4 witness: a completion notification carrying the final unterminated
increment `"data: tail"` parses the buffered record and appends exactly that
one parsed dispatch. -/
theorem c4_witness :
    parseEventChunk (onStreamProgress "data: tail" 200 (runOps [Op.stream] initState)).chunk =
      some { type := "message", data := .str "tail", id := none, readyState := none } ∧
    (onStreamLoaded "data: tail" 200 (runOps [Op.stream] initState)).trace =
      (onStreamProgress "data: tail" 200 (runOps [Op.stream] initState)).trace ++
        [⟨Origin.parsed,
          { type := "message", data := .str "tail", id := none, readyState := none }⟩] := by
  refine ⟨rfl, ?_⟩
  exact (c4_loaded_flush "data: tail" 200 (runOps [Op.stream] initState)
    { type := "message", data := .str "tail", id := none, readyState := none }).2.1 rfl

/-- C5: a data notification with a live handle while the HTTP status is a
failure (non-2xx) status dispatches an `error` event whose data is the raw
response body and transitions to CLOSED via close(). -/
theorem c5_failure_closes (s : SSEState) (text : String) (status : Nat)
    (hx : s.xhr = true) (hs : status < 200 ∨ 300 ≤ status) :
    (onStreamProgress text status s).readyState = CLOSED ∧
    (onStreamProgress text status s).trace =
      s.trace ++ errTEv text ::
        (if s.readyState = CLOSED then [] else [rscTEv CLOSED]) := by
  have hst : status ≠ 200 := by omega
  constructor
  · unfold onStreamProgress
    rw [if_neg (by rw [hx]; decide), if_pos hst]
    exact failure_readyState_of_xhr text s hx
  · unfold onStreamProgress
    rw [if_neg (by rw [hx]; decide), if_pos hst]
    exact failure_closed_trace text s hx

/-- C5 witness: status 500 with body "oops" after stream(): the session
dispatches `{type: "error", data: "oops"}` and becomes CLOSED. -/
theorem c5_witness :
    (runOps [Op.stream] initState).xhr = true ∧ ((500 : Nat) < 200 ∨ 300 ≤ 500) ∧
    ((onStreamProgress "oops" 500 (runOps [Op.stream] initState)).readyState = CLOSED ∧
      (onStreamProgress "oops" 500 (runOps [Op.stream] initState)).trace =
        (runOps [Op.stream] initState).trace ++ errTEv "oops" ::
          (if (runOps [Op.stream] initState).readyState = CLOSED then []
           else [rscTEv CLOSED])) := by
  refine ⟨rfl, by omega, ?_⟩
  exact c5_failure_closes (runOps [Op.stream] initState) "oops" 500 rfl (by omega)

/-- C6 counterexample: after stream(), a transport readystatechange reporting
DONE forces CLOSED while the handle stays set; a following 200 data
notification then dispatches a parsed record although no `open` was ever
dispatched — so a parsed-record dispatch need not come after an `open`
dispatch; and calling stream() twice produces two `open` dispatches. -/
theorem c6_counterexample :
    countOpens (runOps [.stream, .rsc 4, .progress "data: x\n\n" 200]
      initState).trace = 0 ∧
    countParsed (runOps [.stream, .rsc 4, .progress "data: x\n\n" 200]
      initState).trace = 1 ∧
    countOpens (runOps [.stream, .progress "data: x\n\n" 200, .stream,
      .progress "data: x\n\n" 200] initState).trace = 2 :=
  ⟨rfl, rfl, rfl⟩

/-- C6 (amended): assuming stream() is invoked at most once, `open` is
dispatched at most once and never after a parsed-record dispatch — so when an
`open` dispatch exists it strictly precedes every parsed-record dispatch,
though parsed-record dispatches may occur with no `open` at all (when the
transport reports its terminal state before the first data notification). -/
theorem c6_open_once_ordered (ops : List Op) (h : countStream ops ≤ 1) :
    countOpens (runOps ops initState).trace ≤ 1 ∧
    noOpenAfterParsed (runOps ops initState).trace = true := by
  rcases run_from_invA ops initState invA_initState h with hi | ha
  · exact ⟨hi.1, hi.2.1⟩
  · refine ⟨?_, noap_of_no_opens _ ha.2.2.2.1⟩
    rw [ha.2.2.2.1]
    omega

/-- C6 witness: a single-stream run satisfies the amended ordering. -/
theorem c6_witness :
    countStream [Op.stream, Op.progress "data: hi\n\n" 200] ≤ 1 ∧
    (countOpens (runOps [Op.stream, Op.progress "data: hi\n\n" 200]
        initState).trace ≤ 1 ∧
      noOpenAfterParsed (runOps [Op.stream, Op.progress "data: hi\n\n" 200]
        initState).trace = true) := by
  refine ⟨by decide, ?_⟩
  exact c6_open_once_ordered [Op.stream, Op.progress "data: hi\n\n" 200] (by decide)

/-- C7: assuming stream() is invoked at most once per session, once the
readiness state is CLOSED it remains CLOSED under every subsequent operation
or transport notification. -/
theorem c7_closed_terminal (a b : List Op) (h1 : countStream (a ++ b) ≤ 1)
    (h2 : (runOps a initState).readyState = CLOSED) :
    (runOps (a ++ b) initState).readyState = CLOSED := by
  have hsplit : runOps (a ++ b) initState = runOps b (runOps a initState) := by
    unfold runOps
    exact List.foldl_append _ _ _ _
  rw [hsplit]
  have hb : countStream b = 0 := by
    by_cases hca : countStream a = 0
    · exfalso
      have ha : InvA (runOps a initState) := invA_run a initState invA_initState hca
      rw [ha.2.1] at h2
      exact absurd h2 (by decide)
    · unfold countStream at h1 hca ⊢
      rw [List.countP_append] at h1
      omega
  exact closed_run b _ hb h2

/-- C7 witness: after stream() then close(), CLOSED persists through further
progress, abort, close, readystatechange and load notifications. -/
theorem c7_witness :
    countStream ([Op.stream, Op.close] ++ [Op.progress "x" 200, Op.abort,
      Op.close, Op.rsc 4, Op.loaded "x" 200]) ≤ 1 ∧
    (runOps [Op.stream, Op.close] initState).readyState = CLOSED ∧
    (runOps ([Op.stream, Op.close] ++ [Op.progress "x" 200, Op.abort, Op.close,
      Op.rsc 4, Op.loaded "x" 200]) initState).readyState = CLOSED := by
  refine ⟨by decide, by decide, ?_⟩
  exact c7_closed_terminal [Op.stream, Op.close] [Op.progress "x" 200, Op.abort,
    Op.close, Op.rsc 4, Op.loaded "x" 200] (by decide) (by decide)

/-- C8: calling close() any number of times dispatches `readystatechange`
carrying CLOSED at most once in total: iterating close() equals a single
close(), one close() adds at most one such dispatch, and the first effective
call aborts the transport (drops the handle) and forces CLOSED while
dispatching exactly one `readystatechange`; afterwards close() is a no-op. -/
theorem c8_close_idempotent (s : SSEState) (n : Nat) (h : 1 ≤ n) :
    closeIter n s = close s ∧
    countRscClosed (close s).trace ≤ countRscClosed s.trace + 1 ∧
    (¬s.readyState = CLOSED → s.xhr = true →
      (close s).readyState = CLOSED ∧ (close s).xhr = false ∧
        (close s).trace = s.trace ++ [rscTEv CLOSED]) :=
  ⟨closeIter_eq n s h, close_countRsc s, fun h1 h2 => close_effective s h1 h2⟩

/-- C8 witness: three close() calls after stream() behave as one. -/
theorem c8_witness :
    1 ≤ 3 ∧
    (closeIter 3 (runOps [Op.stream] initState) = close (runOps [Op.stream] initState) ∧
      countRscClosed (close (runOps [Op.stream] initState)).trace ≤
        countRscClosed (runOps [Op.stream] initState).trace + 1 ∧
      (¬(runOps [Op.stream] initState).readyState = CLOSED →
        (runOps [Op.stream] initState).xhr = true →
        (close (runOps [Op.stream] initState)).readyState = CLOSED ∧
          (close (runOps [Op.stream] initState)).xhr = false ∧
          (close (runOps [Op.stream] initState)).trace =
            (runOps [Op.stream] initState).trace ++ [rscTEv CLOSED])) :=
  ⟨by decide, c8_close_idempotent (runOps [Op.stream] initState) 3 (by decide)⟩

/-- C9 counterexample: in the freshly constructed state — before stream(), so
no transport handle and not CLOSED — close() reaches `this.xhr.abort()` on a
null handle and throws, refuting the claim that close() is safe in every
readiness state. -/
theorem c9_counterexample : closeThrows initState = true := rfl

/-- C9 (amended): close() completes without throwing in every state that is
already CLOSED or still holds a live transport handle (in particular at any
point after stream()); only in a state with no handle that is not CLOSED —
before stream() has been called — does close() throw. -/
theorem c9_close_safe (s : SSEState)
    (h : s.readyState = CLOSED ∨ s.xhr = true) : closeThrows s = false := by
  unfold closeThrows
  rcases h with h | h
  · rw [h]
    simp
  · rw [h]
    simp

/-- C9 witness: right after stream() the handle is live and close() does not
throw. -/
theorem c9_witness :
    ((streamStart initState).readyState = CLOSED ∨ (streamStart initState).xhr = true) ∧
    closeThrows (streamStart initState) = false :=
  ⟨Or.inr rfl, c9_close_safe (streamStart initState) (Or.inr rfl)⟩

/-- C10: with the options argument omitted (or null) the constructor throws —
it reads `options.headers` unconditionally — and the documented defaults
(headers = {}, payload = '', method derived from payload, withCredentials =
false) are applied only when an options object is supplied. -/
theorem c10_constructor_throws (url : String) :
    ctorThrows url none = true ∧
    sseConstructor url
        (some { headers := none, payload := none, method := none, withCredentials := none }) =
      .ok { url := url, headers := [], payload := "", method := "GET", withCredentials := false } ∧
    sseConstructor url
        (some { headers := none, payload := some "body", method := none, withCredentials := none }) =
      .ok { url := url, headers := [], payload := "body", method := "POST", withCredentials := false } :=
  ⟨rfl, rfl, rfl⟩

end Sse
